import Mathlib

/-!
Shallow embedding of `src/balder11-2-apps/balder.ts` (an educational canvas
toolkit) and proofs about its input-state tracking, grid geometry, sprite
animation, layer registry and vector operations.

JS numbers are modelled as rationals where the code only adds, subtracts,
multiplies, divides and compares them, and as real numbers for the
trigonometric `Vector` operations.  The tri-state values stored in the
keyboard map (`undefined` / `false` / `true` / `null`) are modelled by a
four-constructor inductive type.
-/

namespace Balder

/-! ## Keyboard input state (balder.ts lines 441-466)

`_keys` is a map from key codes to `boolean | null`; a key that was never
stored is `undefined`.  The `keydown` listener runs
`if (_keys[code] !== false) _keys[code] = true`, the `keyup` listener runs
`_keys[code] = null`, and a consumer setter (`keyboard.space = false` etc.)
stores `false`.  The boolean query is `!!_keys[code]`. -/

/-- The four JS values a key slot can hold: `undefined` (never stored),
`false`, `true`, `null`. -/
inductive KeyVal : Type where
  | undef : KeyVal
  | fls : KeyVal
  | tru : KeyVal
  | nul : KeyVal
deriving DecidableEq, Repr

/-- The boolean coercion `!!v` of a key slot: only `true` is truthy. -/
def keyPressed : KeyVal → Bool
  | KeyVal.tru => true
  | _ => false

/-- The `keydown` listener body: store `true` unless the slot is exactly
`false` (`_keys[event.code] !== false`). -/
def keydownEv : KeyVal → KeyVal
  | KeyVal.fls => KeyVal.fls
  | _ => KeyVal.tru

/-- The `keyup` listener body: store `null`. -/
def keyupEv : KeyVal → KeyVal := fun _ => KeyVal.nul

/-- Events that can occur while a key is physically held: an auto-repeated
`keydown`, or a consumer reset writing `false` through a keyboard setter. -/
inductive PressEv : Type where
  | down : PressEv
  | consume : PressEv
deriving DecidableEq, Repr

/-- Apply one during-press event to the key slot. -/
def pressStep : KeyVal → PressEv → KeyVal
  | v, PressEv.down => keydownEv v
  | _, PressEv.consume => KeyVal.fls

/-- Number of query transitions from not-pressed to pressed along an event
sequence. -/
def countRises : KeyVal → List PressEv → Nat
  | _, [] => 0
  | v, e :: es =>
      (if keyPressed v = false ∧ keyPressed (pressStep v e) = true then 1 else 0)
        + countRises (pressStep v e) es

/-! ## Mouse / touch press state and Hitbox (balder.ts lines 472-566, 788-854) -/

/-- A snapshot of the global pointer state read by `Hitbox.clicked`:
`touchscreen.touched`, whether `mouse.buttons.some(v => v)` holds, and the
touch and mouse coordinates. -/
structure InputSnap : Type where
  touched : Bool
  mouseDown : Bool
  touchX : ℚ
  touchY : ℚ
  mouseX : ℚ
  mouseY : ℚ
deriving DecidableEq, Repr

/-- The press condition `touchscreen.touched || mouse.buttons.some(v => v)`. -/
def pressedAny (i : InputSnap) : Bool := i.touched || i.mouseDown

/-- The x coordinate used by `clicked`: `touchscreen.touched ? touchscreen.x : mouse.x`. -/
def pressPosX (i : InputSnap) : ℚ := if i.touched then i.touchX else i.mouseX

/-- The y coordinate used by `clicked`. -/
def pressPosY (i : InputSnap) : ℚ := if i.touched then i.touchY else i.mouseY

/-- The `Hitbox` rectangle (balder.ts line 788). -/
structure Hitbox : Type where
  x : ℚ
  y : ℚ
  width : ℚ
  height : ℚ
deriving DecidableEq, Repr

/-- `Hitbox.contains` (balder.ts lines 816-823):
`x + width > px && x <= px && y + height > py && y <= py`. -/
def Hitbox.contains (h : Hitbox) (px py : ℚ) : Bool :=
  decide (px < h.x + h.width) && decide (h.x ≤ px) &&
    decide (py < h.y + h.height) && decide (h.y ≤ py)

/-- One evaluation of the `clicked` getter (balder.ts lines 834-849), given
the private `clickable` flag and the current input snapshot.  Returns the
query result together with the updated `clickable` flag. -/
def clickedStep (h : Hitbox) (clickable : Bool) (i : InputSnap) : Bool × Bool :=
  if pressedAny i then
    if clickable then (h.contains (pressPosX i) (pressPosY i), false)
    else (false, false)
  else (false, true)

/-- Evaluate `clicked` once per input snapshot, threading the `clickable`
flag; returns the list of query results. -/
def runClicked (h : Hitbox) : Bool → List InputSnap → List Bool
  | _, [] => []
  | c, i :: is => (clickedStep h c i).1 :: runClicked h (clickedStep h c i).2 is

/-- A press snapshot: left mouse button down at (5, 5), no touch. -/
def snapPress : InputSnap :=
  { touched := false, mouseDown := true, touchX := 0, touchY := 0, mouseX := 5, mouseY := 5 }

/-- A released snapshot: no buttons, no touches. -/
def snapRelease : InputSnap :=
  { touched := false, mouseDown := false, touchX := 0, touchY := 0, mouseX := 5, mouseY := 5 }

/-- A 10 by 10 hitbox at the origin. -/
def hb10 : Hitbox := { x := 0, y := 0, width := 10, height := 10 }

/-! ## Theorems -/

/-- While the key slot holds `true` or `false`, no further
not-pressed-to-pressed transition can occur: `keydown` keeps `true` as
`true` and `false` as `false`, and a consumer reset yields `false`. -/
theorem countRises_of_held :
    ∀ (es : List PressEv) (v : KeyVal),
      v = KeyVal.tru ∨ v = KeyVal.fls → countRises v es = 0 := by
  intro es
  induction es with
  | nil => intro v _; rfl
  | cons e es ih =>
      intro v hv
      rcases hv with h | h <;> subst h <;> cases e <;>
        simp [countRises, pressStep, keydownEv, keyPressed,
          ih _ (Or.inl rfl), ih _ (Or.inr rfl)]

/-- C1: a keydown stores `true` unless the slot is exactly `false`; a keyup
stores `null` and never `false`; starting from a released slot (`undefined`
or `null`), a physical press (a first keydown followed by any mix of
auto-repeat keydowns and consumer resets) makes the pressed query rise from
false to true exactly once; and the released value `null` differs from the
never-pressed value `undefined`. -/
theorem keyStateMachine :
    (∀ v : KeyVal, v ≠ KeyVal.fls → keydownEv v = KeyVal.tru)
    ∧ keydownEv KeyVal.fls = KeyVal.fls
    ∧ (∀ v : KeyVal, keyupEv v = KeyVal.nul)
    ∧ (∀ v : KeyVal, keyupEv v ≠ KeyVal.fls)
    ∧ (∀ (s : KeyVal) (es : List PressEv),
        s = KeyVal.undef ∨ s = KeyVal.nul →
          countRises s (PressEv.down :: es) = 1)
    ∧ (∀ v : KeyVal, keyupEv v ≠ KeyVal.undef) := by
  refine ⟨?_, rfl, fun _ => rfl, fun _ => by simp [keyupEv], ?_, fun _ => by simp [keyupEv]⟩
  · intro v hv
    cases v <;> simp_all [keydownEv]
  · intro s es hs
    rcases hs with h | h <;> subst h <;>
      simp [countRises, pressStep, keydownEv, keyPressed,
        countRises_of_held es _ (Or.inl rfl)]

/-- C1 witness: a press starting from the released state, with a consumer
reset and an auto-repeat keydown, rises exactly once. -/
theorem keyStateMachine_witness :
    countRises KeyVal.nul (PressEv.down :: [PressEv.consume, PressEv.down]) = 1 :=
  keyStateMachine.2.2.2.2.1 KeyVal.nul [PressEv.consume, PressEv.down] (Or.inr rfl)

/-- During an unbroken press, a hitbox whose `clickable` flag is already
spent answers `false` to every query. -/
theorem runClicked_disarmed (h : Hitbox) :
    ∀ is : List InputSnap, (∀ j ∈ is, pressedAny j = true) →
      runClicked h false is = is.map fun _ => false := by
  intro is
  induction is with
  | nil => intro _; rfl
  | cons i is ih =>
      intro hall
      have hi : pressedAny i = true := hall i (List.mem_cons_self i is)
      simp [runClicked, clickedStep, hi,
        ih fun j hj => hall j (List.mem_cons_of_mem i hj)]

/-- C2: during a contiguous press an armed hitbox answers the containment
test on the first query and `false` on every later query; a spent hitbox
answers `false` throughout the press; the `clickable` flag re-arms exactly
when a query observes all buttons and touches released; and the concrete
sequence press, query, query, release-query, press, query yields
(true, false, false, true) for an in-box press. -/
theorem hitboxClickedOnce :
    (∀ (h : Hitbox) (i : InputSnap) (is : List InputSnap),
      pressedAny i = true → (∀ j ∈ is, pressedAny j = true) →
        runClicked h true (i :: is) =
          h.contains (pressPosX i) (pressPosY i) :: is.map fun _ => false)
    ∧ (∀ (h : Hitbox) (is : List InputSnap),
        (∀ j ∈ is, pressedAny j = true) →
          runClicked h false is = is.map fun _ => false)
    ∧ (∀ (h : Hitbox) (b : Bool) (i : InputSnap),
        (clickedStep h b i).2 = !(pressedAny i))
    ∧ runClicked hb10 true [snapPress, snapPress, snapRelease, snapPress] =
        [true, false, false, true] := by
  refine ⟨?_, runClicked_disarmed, ?_, by
    norm_num [runClicked, clickedStep, hb10, snapPress, snapRelease, pressedAny,
      pressPosX, pressPosY, Hitbox.contains]⟩
  · intro h i is hi hall
    simp [runClicked, clickedStep, hi, runClicked_disarmed h is hall]
  · intro h b i
    cases hb : pressedAny i <;> cases b <;> simp [clickedStep, hb]

/-- C2 witness: a one-query press on an armed 10 by 10 hitbox returns the
containment test at the press position. -/
theorem hitboxClickedOnce_witness :
    runClicked hb10 true [snapPress] =
      [hb10.contains (pressPosX snapPress) (pressPosY snapPress)] :=
  hitboxClickedOnce.1 hb10 snapPress [] rfl (by simp)

/-- C10: `Hitbox.contains` holds exactly when the point is inside the
half-open rectangle: left and top edges inclusive, right and bottom edges
exclusive; in particular a point on the right or bottom edge is outside. -/
theorem containsHalfOpen :
    ∀ (h : Hitbox) (px py : ℚ),
      (h.contains px py = true ↔
        h.x ≤ px ∧ px < h.x + h.width ∧ h.y ≤ py ∧ py < h.y + h.height)
      ∧ h.contains (h.x + h.width) py = false
      ∧ h.contains px (h.y + h.height) = false := by
  intro h px py
  refine ⟨?_, ?_, ?_⟩
  · simp [Hitbox.contains]
    tauto
  · simp [Hitbox.contains]
  · simp [Hitbox.contains]

/-! ## Cell and Grid (balder.ts lines 568-786)

The `Grid` constructor computes
`cellWidth = (width - columns - 1) / columns`,
`cellHeight = (height - rows - 1) / rows` and creates cell (i, j) at
`(x + j * (cellWidth + 1) + 1, y + i * (cellHeight + 1) + 1)`.
`Grid.cell(row, column)` is `this.cells[row][column]` with no bounds check:
when `row` is out of range, `this.cells[row]` is `undefined` and the inner
index faults; when only `column` is out of range the expression evaluates
to `undefined`.  The `color` setter on a cell stores the value and redraws
that cell (the redraw paints the canvas and mutates no cell field). -/

/-- The mutable visual state of one `Cell` (non-visual DOM handles such as
the image element are out of scope; the custom-draw callback is omitted as
it holds no data read back by any claim). -/
structure Cell : Type where
  row : Nat
  column : Nat
  x : ℚ
  y : ℚ
  width : ℚ
  height : ℚ
  textColor : String
  layer : ℤ
  color : Option String
  text : Option String
  fontSize : ℚ
deriving DecidableEq, Repr

/-- The `Cell` constructor: visual fields start empty and `fontSize` starts
at the cell height. -/
def mkCell (row column : Nat) (x y width height : ℚ) (textColor : String)
    (layer : ℤ) : Cell :=
  { row := row, column := column, x := x, y := y, width := width,
    height := height, textColor := textColor, layer := layer,
    color := none, text := none, fontSize := height }

/-- The `Grid` state: dimensions, bounding rectangle, computed cell strides
and the owned two-dimensional cell array. -/
structure Grid : Type where
  rows : Nat
  columns : Nat
  x : ℚ
  y : ℚ
  width : ℚ
  height : ℚ
  color : String
  layer : ℤ
  cellWidth : ℚ
  cellHeight : ℚ
  cells : List (List Cell)
deriving DecidableEq, Repr

/-- The `Grid` constructor (balder.ts lines 677-702). -/
def mkGrid (rows columns : Nat) (x y width height : ℚ) (color : String)
    (layer : ℤ) : Grid :=
  let cellWidth := (width - (columns : ℚ) - 1) / (columns : ℚ)
  let cellHeight := (height - (rows : ℚ) - 1) / (rows : ℚ)
  { rows := rows, columns := columns, x := x, y := y, width := width,
    height := height, color := color, layer := layer,
    cellWidth := cellWidth, cellHeight := cellHeight,
    cells := (List.range rows).map fun i => (List.range columns).map fun j =>
      mkCell i j (x + (j : ℚ) * (cellWidth + 1) + 1)
        (y + (i : ℚ) * (cellHeight + 1) + 1) cellWidth cellHeight color layer }

/-- `Grid.cell(row, column)` modelled with its JS fault behaviour:
`this.cells[row][column]` throws when `this.cells[row]` is `undefined`
(`Except.error`), and evaluates to `undefined` (`Except.ok none`) when only
the column is out of range. -/
def Grid.cellE (g : Grid) (row column : Nat) : Except Unit (Option Cell) :=
  match g.cells.get? row with
  | none => Except.error ()
  | some r => Except.ok (r.get? column)

/-- Total cell lookup used to state field-level properties. -/
def Grid.cellQ (g : Grid) (row column : Nat) : Option Cell :=
  (g.cells.get? row).bind fun r => r.get? column

/-- Replace the element at one position of a list, leaving other positions
unchanged (the JS mutation of one array slot). -/
def updateNth {α : Type} (f : α → α) : Nat → List α → List α
  | _, [] => []
  | 0, a :: as => f a :: as
  | n + 1, a :: as => a :: updateNth f n as

/-- The `Cell` `color` setter: store the value (the triggered redraw paints
the canvas only). -/
def Cell.setColor (c : Cell) (v : Option String) : Cell := { c with color := v }

/-- Write through `grid.cell(row, column).color = v`: in JS this mutates the
one cell object stored at that slot. -/
def Grid.setCellColor (g : Grid) (row column : Nat) (v : Option String) : Grid :=
  { g with cells := updateNth (updateNth (fun c => c.setColor v) column) row g.cells }

/-- The grid of the end-to-end color test: `new Grid(2, 2, 0, 0, 10, 10)`. -/
def grid22 : Grid := mkGrid 2 2 0 0 10 10 "black" 0

/-- `grid22` after `cell(0,0).color = "red"`. -/
def grid22Red : Grid := grid22.setCellColor 0 0 (some "red")

/-! ## Grid theorems -/

/-- In-range cell lookup on a freshly constructed grid returns the cell the
constructor placed there. -/
theorem cellQ_mkGrid (rows columns : Nat) (x y width height : ℚ)
    (color : String) (layer : ℤ) (i j : Nat) (hi : i < rows) (hj : j < columns) :
    (mkGrid rows columns x y width height color layer).cellQ i j =
      some (mkCell i j
        (x + (j : ℚ) * ((width - (columns : ℚ) - 1) / (columns : ℚ) + 1) + 1)
        (y + (i : ℚ) * ((height - (rows : ℚ) - 1) / (rows : ℚ) + 1) + 1)
        ((width - (columns : ℚ) - 1) / (columns : ℚ))
        ((height - (rows : ℚ) - 1) / (rows : ℚ)) color layer) := by
  simp [mkGrid, Grid.cellQ, List.getElem?_map, List.getElem?_range hi,
    List.getElem?_range hj]

/-- C3 counterexample: for `Grid(1, 1, 0, 0, 2, 2)` the bounding rectangle
satisfies `width > columns` and `height > rows` (2 > 1), yet the computed
cell width is `(2 - 1 - 1) / 1 = 0`, which is not positive; the claim that
cell width is positive whenever `w > c` is false. -/
theorem gridCellPositive_counterexample :
    ((1 : ℚ) < 2 ∧ (1 : ℚ) < 2)
    ∧ (mkGrid 1 1 0 0 2 2 "black" 0).cellWidth = 0
    ∧ ¬ 0 < (mkGrid 1 1 0 0 2 2 "black" 0).cellWidth := by
  norm_num [mkGrid]

/-- C3 (amended: positivity requires `width > columns + 1` and
`height > rows + 1`, not merely `width > columns` and `height > rows`):
cell width is `(w - c - 1)/c` and cell height `(h - r - 1)/r`; both are
positive; cell (i, j) is stored at
`(x + j(cellWidth + 1) + 1, y + i(cellHeight + 1) + 1)`; the first cell
leaves a 1-unit gutter at the left and top edges, the last cell ends
exactly 1 unit inside the right and bottom edges, each next cell starts
exactly 1 unit after the previous one ends, and distinct cells do not
overlap. -/
theorem gridGeometry (rows columns : Nat) (x y width height : ℚ)
    (hr : 1 ≤ rows) (hc : 1 ≤ columns)
    (hw : (columns : ℚ) + 1 < width) (hh : (rows : ℚ) + 1 < height) :
    ((mkGrid rows columns x y width height "black" 0).cellWidth =
        (width - (columns : ℚ) - 1) / (columns : ℚ)
      ∧ (mkGrid rows columns x y width height "black" 0).cellHeight =
        (height - (rows : ℚ) - 1) / (rows : ℚ))
    ∧ (0 < (mkGrid rows columns x y width height "black" 0).cellWidth
      ∧ 0 < (mkGrid rows columns x y width height "black" 0).cellHeight)
    ∧ (∀ i j : Nat, i < rows → j < columns →
        (mkGrid rows columns x y width height "black" 0).cellQ i j =
          some (mkCell i j
            (x + (j : ℚ) * ((mkGrid rows columns x y width height "black" 0).cellWidth + 1) + 1)
            (y + (i : ℚ) * ((mkGrid rows columns x y width height "black" 0).cellHeight + 1) + 1)
            (mkGrid rows columns x y width height "black" 0).cellWidth
            (mkGrid rows columns x y width height "black" 0).cellHeight "black" 0))
    ∧ (x + (0 : ℚ) * ((mkGrid rows columns x y width height "black" 0).cellWidth + 1) + 1 = x + 1
      ∧ y + (0 : ℚ) * ((mkGrid rows columns x y width height "black" 0).cellHeight + 1) + 1 = y + 1)
    ∧ (x + ((columns - 1 : Nat) : ℚ) * ((mkGrid rows columns x y width height "black" 0).cellWidth + 1) + 1
          + (mkGrid rows columns x y width height "black" 0).cellWidth = x + width - 1
      ∧ y + ((rows - 1 : Nat) : ℚ) * ((mkGrid rows columns x y width height "black" 0).cellHeight + 1) + 1
          + (mkGrid rows columns x y width height "black" 0).cellHeight = y + height - 1)
    ∧ (∀ j : Nat,
        x + ((j + 1 : Nat) : ℚ) * ((mkGrid rows columns x y width height "black" 0).cellWidth + 1) + 1 =
          (x + (j : ℚ) * ((mkGrid rows columns x y width height "black" 0).cellWidth + 1) + 1
            + (mkGrid rows columns x y width height "black" 0).cellWidth) + 1)
    ∧ (∀ j k : Nat, j < k →
        x + (j : ℚ) * ((mkGrid rows columns x y width height "black" 0).cellWidth + 1) + 1
          + (mkGrid rows columns x y width height "black" 0).cellWidth <
        x + (k : ℚ) * ((mkGrid rows columns x y width height "black" 0).cellWidth + 1) + 1)
    ∧ (∀ i k : Nat, i < k →
        y + (i : ℚ) * ((mkGrid rows columns x y width height "black" 0).cellHeight + 1) + 1
          + (mkGrid rows columns x y width height "black" 0).cellHeight <
        y + (k : ℚ) * ((mkGrid rows columns x y width height "black" 0).cellHeight + 1) + 1) := by
  have hc0 : (0 : ℚ) < (columns : ℚ) := by exact_mod_cast hc
  have hr0 : (0 : ℚ) < (rows : ℚ) := by exact_mod_cast hr
  have hcw : (mkGrid rows columns x y width height "black" 0).cellWidth =
      (width - (columns : ℚ) - 1) / (columns : ℚ) := rfl
  have hch : (mkGrid rows columns x y width height "black" 0).cellHeight =
      (height - (rows : ℚ) - 1) / (rows : ℚ) := rfl
  have hcwpos : 0 < (mkGrid rows columns x y width height "black" 0).cellWidth := by
    rw [hcw]; exact div_pos (by linarith) hc0
  have hchpos : 0 < (mkGrid rows columns x y width height "black" 0).cellHeight := by
    rw [hch]; exact div_pos (by linarith) hr0
  refine ⟨⟨hcw, hch⟩, ⟨hcwpos, hchpos⟩, ?_, ⟨by ring, by ring⟩, ⟨?_, ?_⟩, ?_, ?_, ?_⟩
  · intro i j hi hj
    rw [cellQ_mkGrid rows columns x y width height "black" 0 i j hi hj, hcw, hch]
  · rw [hcw, Nat.cast_sub hc]
    field_simp
    ring
  · rw [hch, Nat.cast_sub hr]
    field_simp
    ring
  · intro j
    push_cast
    ring
  · intro j k hjk
    rw [hcw]
    have hjk1 : (j : ℚ) + 1 ≤ (k : ℚ) := by exact_mod_cast hjk
    set cw : ℚ := (width - (columns : ℚ) - 1) / (columns : ℚ) with hcwdef
    have hcwp : 0 < cw := by rw [hcwdef]; exact div_pos (by linarith) hc0
    nlinarith [mul_le_mul_of_nonneg_right hjk1 (le_of_lt (by linarith : (0 : ℚ) < cw + 1))]
  · intro i k hik
    rw [hch]
    have hik1 : (i : ℚ) + 1 ≤ (k : ℚ) := by exact_mod_cast hik
    set ch : ℚ := (height - (rows : ℚ) - 1) / (rows : ℚ) with hchdef
    have hchp : 0 < ch := by rw [hchdef]; exact div_pos (by linarith) hr0
    nlinarith [mul_le_mul_of_nonneg_right hik1 (le_of_lt (by linarith : (0 : ℚ) < ch + 1))]

/-- C3 witness: a 2 by 3 grid on a 20 by 30 rectangle has positive cell
width `(20 - 3 - 1)/3 = 16/3`. -/
theorem gridGeometry_witness :
    0 < (mkGrid 2 3 0 0 20 30 "black" 0).cellWidth :=
  (gridGeometry 2 3 0 0 20 30 (by norm_num) (by norm_num) (by norm_num)
    (by norm_num)).2.1.1

/-- C7: on `Grid(2, 2, 0, 0, 10, 10)`, setting `cell(0,0).color = "red"`
makes reading `cell(0,0).color` return `"red"`, leaves every other cell
entirely unchanged (every field, in particular `color`), and the other
cells still hold their initial empty color. -/
theorem gridCellColorIsolated :
    (grid22Red.cellQ 0 0).map Cell.color = some (some "red")
    ∧ grid22Red.cellQ 0 1 = grid22.cellQ 0 1
    ∧ grid22Red.cellQ 1 0 = grid22.cellQ 1 0
    ∧ grid22Red.cellQ 1 1 = grid22.cellQ 1 1
    ∧ (grid22.cellQ 0 1).map Cell.color = some none
    ∧ (grid22.cellQ 1 0).map Cell.color = some none
    ∧ (grid22.cellQ 1 1).map Cell.color = some none := by
  refine ⟨rfl, rfl, rfl, rfl, rfl, rfl, rfl⟩

/-- C9: `Grid.cell` does no bounds validation: for every in-range pair it
returns the stored cell; for every row at or beyond the row count the
lookup faults at the point of use; and an in-range row with an out-of-range
column evaluates to `undefined` instead of faulting. -/
theorem gridCellNoValidation (rows columns : Nat) (x y width height : ℚ)
    (row column : Nat) :
    (row < rows → column < columns →
      (mkGrid rows columns x y width height "black" 0).cellE row column =
        Except.ok (some (mkCell row column
          (x + (column : ℚ) * ((width - (columns : ℚ) - 1) / (columns : ℚ) + 1) + 1)
          (y + (row : ℚ) * ((height - (rows : ℚ) - 1) / (rows : ℚ) + 1) + 1)
          ((width - (columns : ℚ) - 1) / (columns : ℚ))
          ((height - (rows : ℚ) - 1) / (rows : ℚ)) "black" 0)))
    ∧ (rows ≤ row →
      (mkGrid rows columns x y width height "black" 0).cellE row column =
        Except.error ())
    ∧ (row < rows → columns ≤ column →
      (mkGrid rows columns x y width height "black" 0).cellE row column =
        Except.ok none) := by
  refine ⟨?_, ?_, ?_⟩
  · intro hi hj
    have h := cellQ_mkGrid rows columns x y width height "black" 0 row column hi hj
    unfold Grid.cellQ at h
    unfold Grid.cellE
    rcases hg : (mkGrid rows columns x y width height "black" 0).cells.get? row with _ | r
    · rw [hg] at h
      simp at h
    · rw [hg] at h
      simp at h
      simp [h]
  · intro hi
    unfold Grid.cellE
    have hlen : (mkGrid rows columns x y width height "black" 0).cells.length = rows := by
      simp [mkGrid]
    have : (mkGrid rows columns x y width height "black" 0).cells.get? row = none := by
      rw [List.get?_eq_none]
      omega
    rw [this]
  · intro hi hj
    unfold Grid.cellE
    have hg : (mkGrid rows columns x y width height "black" 0).cells.get? row =
        some ((List.range columns).map fun j =>
          mkCell row j (x + (j : ℚ) * (((width - (columns : ℚ) - 1) / (columns : ℚ)) + 1) + 1)
            (y + (row : ℚ) * (((height - (rows : ℚ) - 1) / (rows : ℚ)) + 1) + 1)
            ((width - (columns : ℚ) - 1) / (columns : ℚ))
            ((height - (rows : ℚ) - 1) / (rows : ℚ)) "black" 0) := by
      simp [mkGrid, List.getElem?_map, List.getElem?_range hi]
    rw [hg]
    have : ((List.range columns).map fun j =>
        mkCell row j (x + (j : ℚ) * (((width - (columns : ℚ) - 1) / (columns : ℚ)) + 1) + 1)
          (y + (row : ℚ) * (((height - (rows : ℚ) - 1) / (rows : ℚ)) + 1) + 1)
          ((width - (columns : ℚ) - 1) / (columns : ℚ))
          ((height - (rows : ℚ) - 1) / (rows : ℚ)) "black" 0).get? column = none := by
      rw [List.get?_eq_none]
      simp
      omega
    exact congrArg Except.ok this

/-- C9 witness: on a 2 by 2 grid, row 2 faults and cell (0, 0) is returned
with its constructed geometry. -/
theorem gridCellNoValidation_witness :
    (mkGrid 2 2 0 0 10 10 "black" 0).cellE 2 0 = Except.error ()
    ∧ (mkGrid 2 2 0 0 10 10 "black" 0).cellE 0 0 =
      Except.ok (some (mkCell 0 0
        (0 + (0 : ℚ) * ((10 - (2 : ℚ) - 1) / (2 : ℚ) + 1) + 1)
        (0 + (0 : ℚ) * ((10 - (2 : ℚ) - 1) / (2 : ℚ) + 1) + 1)
        ((10 - (2 : ℚ) - 1) / (2 : ℚ)) ((10 - (2 : ℚ) - 1) / (2 : ℚ)) "black" 0)) :=
  ⟨(gridCellNoValidation 2 2 0 0 10 10 2 0).2.1 (by norm_num),
    (gridCellNoValidation 2 2 0 0 10 10 0 0).1 (by norm_num) (by norm_num)⟩

/-! ## Sprite frame advancement (balder.ts lines 877-953)

`Sprite.update()` runs `remainingTime -= DT`; when the counter drops below
zero it advances the frame index, or — if the index is already at the last
frame and looping is off — sets `finished`, and in either case replenishes
the counter by `1000 / framesPerSecond`.  The constructor initialises the
counter through the `framesPerSecond` setter, so it starts at one full
frame duration.  `n` is the length of the frame list. -/

/-- The sprite animation state (drawing fields are out of scope). -/
structure SpriteS : Type where
  index : Nat
  remainingTime : ℚ
  fps : ℚ
  loop : Bool
  finished : Bool
deriving DecidableEq, Repr

/-- The sprite constructor state: index 0, counter one frame duration,
not finished. -/
def mkSprite (fps : ℚ) (loop : Bool) : SpriteS :=
  { index := 0, remainingTime := 1000 / fps, fps := fps, loop := loop,
    finished := false }

/-- One `Sprite.update()` call with elapsed frame time `dt` (the global
`DT`), for a frame list of length `n`. -/
def SpriteS.update (n : Nat) (dt : ℚ) (s : SpriteS) : SpriteS :=
  let rt := s.remainingTime - dt
  if rt < 0 then
    if n - 1 ≤ s.index then
      if s.loop then { s with index := 0, remainingTime := rt + 1000 / s.fps }
      else { s with finished := true, remainingTime := rt + 1000 / s.fps }
    else { s with index := s.index + 1, remainingTime := rt + 1000 / s.fps }
  else { s with remainingTime := rt }

/-- Run a sequence of `update()` calls. -/
def runUpdates (n : Nat) (s : SpriteS) : List ℚ → SpriteS
  | [] => s
  | dt :: dts => runUpdates n (s.update n dt) dts

/-- How many of the updates underflow the remaining-time counter. -/
def underflowCount (n : Nat) (s : SpriteS) : List ℚ → Nat
  | [] => 0
  | dt :: dts =>
      (if s.remainingTime - dt < 0 then 1 else 0)
        + underflowCount n (s.update n dt) dts

/-- The reachable-state description for a non-looping sprite: after `u`
underflows and total elapsed time `e`, the index is `min u (n - 1)`, the
sprite is finished exactly when `u` reached `n`, and the counter equals the
replenished budget minus the elapsed time. -/
def SpriteInv (n : Nat) (fps : ℚ) (u : Nat) (e : ℚ) (s : SpriteS) : Prop :=
  s.index = min u (n - 1)
    ∧ s.finished = decide (n ≤ u)
    ∧ s.remainingTime = ((u : ℚ) + 1) * (1000 / fps) - e
    ∧ s.loop = false
    ∧ s.fps = fps

/-- `update` never changes the stored frame rate. -/
theorem update_fps (n : Nat) (dt : ℚ) (s : SpriteS) :
    (s.update n dt).fps = s.fps := by
  unfold SpriteS.update
  dsimp only
  split
  · split
    · split <;> rfl
    · rfl
  · rfl

/-- Case description of one `update()` call for a non-looping sprite. -/
theorem update_eq (n : Nat) (dt : ℚ) (s : SpriteS) (hloop : s.loop = false) :
    s.update n dt =
      if s.remainingTime - dt < 0 then
        if n - 1 ≤ s.index then
          { s with finished := true, remainingTime := s.remainingTime - dt + 1000 / s.fps }
        else
          { s with index := s.index + 1, remainingTime := s.remainingTime - dt + 1000 / s.fps }
      else { s with remainingTime := s.remainingTime - dt } := by
  unfold SpriteS.update
  dsimp only
  rw [hloop]
  simp only [Bool.false_eq_true, if_false]

/-- One update preserves the reachable-state description, incrementing the
underflow count exactly when the counter underflows. -/
theorem spriteInv_update (n : Nat) (fps : ℚ) (u : Nat) (e dt : ℚ)
    (s : SpriteS) (h : SpriteInv n fps u e s) :
    SpriteInv n fps (if s.remainingTime - dt < 0 then u + 1 else u) (e + dt)
      (s.update n dt) := by
  obtain ⟨hidx, hfin, hrt, hloop, hfps⟩ := h
  rw [update_eq n dt s hloop]
  by_cases hu : s.remainingTime - dt < 0
  · rw [if_pos hu, if_pos hu]
    by_cases hterm : n - 1 ≤ s.index
    · rw [if_pos hterm]
      refine ⟨?_, ?_, ?_, hloop, hfps⟩
      · dsimp only
        omega
      · dsimp only
        exact (decide_eq_true (by omega : n ≤ u + 1)).symm
      · dsimp only
        rw [hrt, hfps]
        push_cast
        ring
    · rw [if_neg hterm]
      refine ⟨?_, ?_, ?_, hloop, hfps⟩
      · dsimp only
        omega
      · dsimp only
        rw [hfin]
        simp only [decide_eq_decide]
        omega
      · dsimp only
        rw [hrt, hfps]
        push_cast
        ring
  · rw [if_neg hu, if_neg hu]
    refine ⟨hidx, hfin, ?_, hloop, hfps⟩
    dsimp only
    rw [hrt]
    ring

/-- Running updates preserves the reachable-state description, adding the
underflow count of the run and the elapsed time of the run. -/
theorem spriteInv_run (n : Nat) (fps : ℚ) :
    ∀ (dts : List ℚ) (u : Nat) (e : ℚ) (s : SpriteS), SpriteInv n fps u e s →
      SpriteInv n fps (u + underflowCount n s dts) (e + dts.sum)
        (runUpdates n s dts) := by
  intro dts
  induction dts with
  | nil =>
      intro u e s h
      simpa [runUpdates, underflowCount] using h
  | cons dt dts ih =>
      intro u e s h
      have hstep := spriteInv_update n fps u e dt s h
      have hrec := ih _ _ _ hstep
      by_cases hu : s.remainingTime - dt < 0 <;>
        simp only [hu, if_true, if_false, ite_true, ite_false] at hrec <;>
        simpa [runUpdates, underflowCount, hu, Nat.add_assoc, add_assoc,
          Nat.add_comm, Nat.add_left_comm, add_comm, add_left_comm] using hrec

/-- If every elapsed time lies between zero and one frame duration, the
remaining-time counter never goes (and stays) negative across a run. -/
theorem remainingTime_nonneg (n : Nat) :
    ∀ (dts : List ℚ) (s : SpriteS),
      (∀ dt ∈ dts, 0 ≤ dt ∧ dt ≤ 1000 / s.fps) → 0 ≤ s.remainingTime →
        0 ≤ (runUpdates n s dts).remainingTime := by
  intro dts
  induction dts with
  | nil => intro s _ h0; simpa [runUpdates] using h0
  | cons dt dts ih =>
      intro s hall h0
      have hdt := hall dt (List.mem_cons_self dt dts)
      have hnext : 0 ≤ (s.update n dt).remainingTime := by
        unfold SpriteS.update
        dsimp only
        split
        · rename_i hu
          split
          · split <;> simp <;> linarith
          · simp
            linarith
        · rename_i hu
          simp
          linarith
      have hall2 : ∀ d ∈ dts, 0 ≤ d ∧ d ≤ 1000 / (s.update n dt).fps := by
        intro d hd
        rw [update_fps]
        exact hall d (List.mem_cons_of_mem dt hd)
      simpa [runUpdates] using ih (s.update n dt) hall2 hnext

/-- The underflow count of a concatenated run splits at the junction. -/
theorem underflowCount_append (n : Nat) :
    ∀ (l1 l2 : List ℚ) (s : SpriteS),
      underflowCount n s (l1 ++ l2) =
        underflowCount n s l1 + underflowCount n (runUpdates n s l1) l2 := by
  intro l1
  induction l1 with
  | nil => intro l2 s; simp [underflowCount, runUpdates]
  | cons dt l1 ih =>
      intro l2 s
      simp [underflowCount, runUpdates, ih, Nat.add_assoc]

/-- C4 counterexample: a one-frame non-looping sprite at 1000 frames per
second (frame duration 1) receives one update of elapsed time 1 — the
updates span exactly `n = 1` frame-durations, each elapsed time lies within
one frame duration — yet `finished` is still false, because the counter
reaches exactly zero and only a strictly negative counter advances; so
"at least n consecutive frame-durations" does not suffice. -/
theorem spriteFinished_counterexample :
    (1 : ℚ) * (1000 / 1000) ≤ List.sum [(1 : ℚ)]
    ∧ (0 : ℚ) ≤ 1 ∧ (1 : ℚ) ≤ 1000 / 1000
    ∧ (runUpdates 1 (mkSprite 1000 false) [1]).finished = false := by
  refine ⟨by norm_num, by norm_num, by norm_num, ?_⟩
  norm_num [runUpdates, mkSprite, SpriteS.update]

/-- C4 (amended: the run must span strictly more than `n` frame-durations,
and each update's elapsed time must lie between 0 and one frame duration —
at exactly `n` frame-durations, or with a single oversized elapsed step,
the sprite need not finish): a non-looping sprite with `n ≥ 1` frames
decrements its counter by the elapsed time on each update and, on
underflow, advances the index or sets `finished` at the last frame while
replenishing the counter by `1000 / framesPerSecond`; after a run of
updates, each with elapsed time in `[0, 1000/fps]`, whose total elapsed
time strictly exceeds `n * (1000/fps)`, the sprite is finished with index
`n - 1`, and it stays finished with index `n - 1` after any further
updates. -/
theorem spriteFinishedAfterSpan (n : Nat) (fps : ℚ) (dts : List ℚ)
    (hn : 1 ≤ n) (hfps : 0 < fps)
    (hdt : ∀ dt ∈ dts, 0 ≤ dt ∧ dt ≤ 1000 / fps)
    (hspan : (n : ℚ) * (1000 / fps) < dts.sum) :
    ((runUpdates n (mkSprite fps false) dts).finished = true
      ∧ (runUpdates n (mkSprite fps false) dts).index = n - 1)
    ∧ ∀ dts2 : List ℚ,
        (runUpdates n (mkSprite fps false) (dts ++ dts2)).finished = true
        ∧ (runUpdates n (mkSprite fps false) (dts ++ dts2)).index = n - 1 := by
  have hT : (0 : ℚ) < 1000 / fps := by positivity
  have base : SpriteInv n fps 0 0 (mkSprite fps false) := by
    refine ⟨by simp [mkSprite], ?_, ?_, rfl, rfl⟩
    · dsimp [mkSprite]
      exact (decide_eq_false (by omega : ¬ n ≤ 0)).symm
    · dsimp [mkSprite]
      ring
  have hinv := spriteInv_run n fps dts 0 0 (mkSprite fps false) base
  simp only [Nat.zero_add, zero_add] at hinv
  obtain ⟨hidx, hfin, hrt, _, _⟩ := hinv
  have hrtpos : 0 ≤ (runUpdates n (mkSprite fps false) dts).remainingTime := by
    refine remainingTime_nonneg n dts (mkSprite fps false) ?_ ?_
    · simpa [mkSprite] using hdt
    · simp [mkSprite]
      positivity
  set u : Nat := underflowCount n (mkSprite fps false) dts with hu
  have hsum : dts.sum ≤ ((u : ℚ) + 1) * (1000 / fps) := by
    rw [hrt] at hrtpos
    linarith
  have hnu : n ≤ u := by
    have hlt : (n : ℚ) * (1000 / fps) < ((u : ℚ) + 1) * (1000 / fps) := by
      linarith
    have : (n : ℚ) < (u : ℚ) + 1 := lt_of_mul_lt_mul_right hlt (le_of_lt hT)
    exact_mod_cast Nat.lt_succ_iff.mp (by exact_mod_cast this)
  refine ⟨⟨by rw [hfin]; exact decide_eq_true hnu, by rw [hidx]; omega⟩, ?_⟩
  intro dts2
  have hinv2 := spriteInv_run n fps (dts ++ dts2) 0 0 (mkSprite fps false) base
  simp only [Nat.zero_add, zero_add] at hinv2
  obtain ⟨hidx2, hfin2, _, _, _⟩ := hinv2
  have hsplit := underflowCount_append n dts dts2 (mkSprite fps false)
  have hnu2 : n ≤ underflowCount n (mkSprite fps false) (dts ++ dts2) := by
    rw [hsplit]
    omega
  exact ⟨by rw [hfin2]; exact decide_eq_true hnu2, by rw [hidx2]; omega⟩

/-- C4 witness: a two-frame non-looping sprite at 1000 frames per second,
updated three times with elapsed time 1 each (spanning 3 > 2
frame-durations), is finished with index 1. -/
theorem spriteFinishedAfterSpan_witness :
    (runUpdates 2 (mkSprite 1000 false) [1, 1, 1]).finished = true
    ∧ (runUpdates 2 (mkSprite 1000 false) [1, 1, 1]).index = 2 - 1 :=
  (spriteFinishedAfterSpan 2 1000 [1, 1, 1] (by norm_num) (by norm_num)
    (by intro dt hdt; simp at hdt; subst hdt; norm_num) (by norm_num)).1

/-! ## Layer registry (balder.ts lines 27-29, 1738-1768)

`setLayer(layer)` lazily creates a canvas element of the current viewport
size `W` by `H` with CSS `zIndex = layer`, then sets the active layer and
points the shared drawing context `ctx` at that layer.  `resetCanvas()`
reads new viewport dimensions, resizes every existing layer surface to
them, and ends with `setLayer(0)`. -/

/-- One backing canvas surface: its pixel dimensions and its CSS z-index. -/
structure Surface : Type where
  width : Nat
  height : Nat
  z : ℤ
deriving DecidableEq, Repr

/-- The registry globals: `_canvasLayers`/`_ctxs` (one surface per integer
id), `_layer` (the active id), the id whose context the global `ctx`
variable holds, and the viewport dimensions `W`, `H`. -/
structure RegState : Type where
  layers : ℤ → Option Surface
  active : ℤ
  ctxLayer : ℤ
  W : Nat
  H : Nat

/-- `setLayer` (balder.ts lines 1756-1768). -/
def setLayer (layer : ℤ) (s : RegState) : RegState :=
  let layers :=
    match s.layers layer with
    | none => fun j =>
        if j = layer then some { width := s.W, height := s.H, z := layer }
        else s.layers j
    | some _ => s.layers
  { layers := layers, active := layer, ctxLayer := layer, W := s.W, H := s.H }

/-- The resize loop of `resetCanvas`: store the new viewport dimensions and
resize every existing surface to them. -/
def resizeAll (newW newH : Nat) (s : RegState) : RegState :=
  { layers := fun j => (s.layers j).map fun surf => { surf with width := newW, height := newH },
    active := s.active, ctxLayer := s.ctxLayer, W := newW, H := newH }

/-- `resetCanvas` (balder.ts lines 1738-1750) with the freshly computed
viewport dimensions as inputs: every surface is resized, then `setLayer(0)`
runs. -/
def resetCanvas (newW newH : Nat) (s : RegState) : RegState :=
  setLayer 0 (resizeAll newW newH s)

/-- The size invariant: every existing layer surface has exactly the
current viewport dimensions. -/
def SizeInv (s : RegState) : Prop :=
  ∀ (layer : ℤ) (surf : Surface),
    s.layers layer = some surf → surf.width = s.W ∧ surf.height = s.H

/-- The registry before any layer exists, at a 800 by 600 viewport. -/
def reg0 : RegState :=
  { layers := fun _ => none, active := 0, ctxLayer := 0, W := 800, H := 600 }

/-! ## Layer registry theorems -/

/-- C5 counterexample: starting from an empty registry, `setLayer 5` then
`setLayer 3` creates layer 3 with z-index 3, which is not above the
previously created layer 5 (z-index 5); the claim that a first-use surface
is z-ordered above every previously created surface is false — the code
sets the z-index to the layer id itself. -/
theorem setLayerZOrder_counterexample :
    ∃ s5 s3 : Surface,
      (setLayer 5 reg0).layers 5 = some s5
      ∧ (setLayer 3 (setLayer 5 reg0)).layers 3 = some s3
      ∧ ¬ s5.z < s3.z := by
  refine ⟨{ width := 800, height := 600, z := 5 },
    { width := 800, height := 600, z := 3 }, ?_, ?_, by norm_num⟩
  · rfl
  · rfl

/-- C5 (amended: the surface created on first use gets z-index equal to the
layer id — above previously created layers with smaller ids, but below any
with larger ids — rather than above every previously created surface):
`setLayer(id)` leaves a surface of the current viewport size in place for
`id` (creating it at `W` by `H` with z-index `id` on first use, touching no
other slot), and afterwards `id` is the active layer and the drawing
context targets its surface. -/
theorem setLayerSpec (s : RegState) (layer : ℤ) (hs : SizeInv s) :
    (setLayer layer s).active = layer
    ∧ (setLayer layer s).ctxLayer = layer
    ∧ (∃ surf : Surface, (setLayer layer s).layers layer = some surf
        ∧ surf.width = s.W ∧ surf.height = s.H)
    ∧ (s.layers layer = none →
        (setLayer layer s).layers layer =
          some { width := s.W, height := s.H, z := layer })
    ∧ (∀ other : ℤ, other ≠ layer →
        (setLayer layer s).layers other = s.layers other) := by
  refine ⟨rfl, rfl, ?_, ?_, ?_⟩
  · unfold setLayer
    rcases hl : s.layers layer with _ | surf
    · exact ⟨{ width := s.W, height := s.H, z := layer }, by simp [hl], rfl, rfl⟩
    · exact ⟨surf, by simp [hl], (hs layer surf hl).1, (hs layer surf hl).2⟩
  · intro hl
    unfold setLayer
    simp [hl]
  · intro other hother
    unfold setLayer
    rcases hl : s.layers layer with _ | surf
    · simp [hl, hother]
    · simp [hl]

/-- C5 witness: activating layer 7 on the empty registry makes 7 active and
creates its surface at the viewport size with z-index 7. -/
theorem setLayerSpec_witness :
    (setLayer 7 reg0).active = 7
    ∧ (setLayer 7 reg0).layers 7 = some { width := 800, height := 600, z := 7 } :=
  ⟨(setLayerSpec reg0 7 (fun _ _ h => Option.noConfusion h)).1,
    (setLayerSpec reg0 7 (fun _ _ h => Option.noConfusion h)).2.2.2.1 rfl⟩

/-- C6: both registry operations preserve the size invariant — `setLayer`
creates surfaces only at the current `W` by `H`, and `resetCanvas` resizes
every surface together with the viewport — and after a reset every surface
has exactly the new dimensions; consequently any two surfaces always agree
in size. -/
theorem layerSizeInvariant (s : RegState) (hs : SizeInv s) (layer : ℤ)
    (newW newH : Nat) :
    SizeInv (setLayer layer s)
    ∧ SizeInv (resetCanvas newW newH s)
    ∧ (∀ (l : ℤ) (surf : Surface),
        (resetCanvas newW newH s).layers l = some surf →
          surf.width = newW ∧ surf.height = newH)
    ∧ (∀ (l1 l2 : ℤ) (s1 s2 : Surface),
        (setLayer layer s).layers l1 = some s1 →
          (setLayer layer s).layers l2 = some s2 →
            s1.width = s2.width ∧ s1.height = s2.height) := by
  have hset : ∀ (t : RegState), SizeInv t → SizeInv (setLayer layer t) := by
    intro t ht l surf
    unfold setLayer
    rcases hl : t.layers layer with _ | surf0
    · dsimp only
      by_cases hll : l = layer
      · subst hll
        simp only [if_pos rfl]
        intro h
        cases h
        exact ⟨rfl, rfl⟩
      · simp only [if_neg hll]
        exact ht l surf
    · exact ht l surf
  have hresize : SizeInv (resizeAll newW newH s) := by
    intro l surf h
    unfold resizeAll at h
    dsimp only at h
    rcases hl : s.layers l with _ | surf0
    · rw [hl] at h
      cases h
    · rw [hl] at h
      cases h
      exact ⟨rfl, rfl⟩
  have hreset0 : ∀ (t : RegState), SizeInv t → SizeInv (setLayer 0 t) := by
    intro t ht l surf
    unfold setLayer
    rcases hl : t.layers 0 with _ | surf0
    · dsimp only
      by_cases hll : l = 0
      · subst hll
        simp only [if_pos rfl]
        intro h
        cases h
        exact ⟨rfl, rfl⟩
      · simp only [if_neg hll]
        exact ht l surf
    · exact ht l surf
  have hreset : SizeInv (resetCanvas newW newH s) := hreset0 _ hresize
  refine ⟨hset s hs, hreset, ?_, ?_⟩
  · intro l surf h
    have hW : (resetCanvas newW newH s).W = newW := rfl
    have hH : (resetCanvas newW newH s).H = newH := rfl
    have := hreset l surf h
    rw [hW, hH] at this
    exact this
  · intro l1 l2 s1 s2 h1 h2
    have e1 := hset s hs l1 s1 h1
    have e2 := hset s hs l2 s2 h2
    exact ⟨e1.1.trans e2.1.symm, e1.2.trans e2.2.symm⟩

/-- C6 witness: the invariant holds after activating layer 1 and after a
resize to 640 by 480, starting from the empty registry. -/
theorem layerSizeInvariant_witness :
    SizeInv (setLayer 1 reg0) ∧ SizeInv (resetCanvas 640 480 reg0) :=
  ⟨(layerSizeInvariant reg0 (fun _ _ h => Option.noConfusion h) 1 640 480).1,
    (layerSizeInvariant reg0 (fun _ _ h => Option.noConfusion h) 1 640 480).2.1⟩

/-! ## Vector polar setters (balder.ts lines 1445-1463)

`Vector` stores cartesian components; `length` is `Math.hypot(x, y)`,
`angle` is `Math.atan2(y, x)` (modelled by `Complex.arg` of the point,
which equals atan2 of (y, x) with values in (-pi, pi]).  The `length`
setter reads the current angle and rebuilds both components; the `angle`
setter reads the current length and rebuilds both components. -/

/-- The 2-D vector value. -/
structure Vector : Type where
  x : ℝ
  y : ℝ

/-- `Math.hypot(this.x, this.y)`. -/
noncomputable def Vector.length (v : Vector) : ℝ := Real.sqrt (v.x ^ 2 + v.y ^ 2)

/-- `Math.atan2(this.y, this.x)`. -/
noncomputable def Vector.angle (v : Vector) : ℝ := Complex.arg ⟨v.x, v.y⟩

/-- The `length` setter: `x = value * cos(angle); y = value * sin(angle)`
with the angle read before the mutation. -/
noncomputable def Vector.setLength (v : Vector) (value : ℝ) : Vector :=
  { x := value * Real.cos v.angle, y := value * Real.sin v.angle }

/-- The `angle` setter: `x = length * cos(value); y = length * sin(value)`
with the length read before the mutation. -/
noncomputable def Vector.setAngle (v : Vector) (value : ℝ) : Vector :=
  { x := v.length * Real.cos value, y := v.length * Real.sin value }

/-! ## Vector theorems -/

/-- C8 counterexample: assigning length 0 to the vector (0, 1) (angle pi/2)
collapses it to (0, 0), whose angle is 0, not pi/2 — so assigning
`v.length = L` does not leave `v.angle` unchanged for every `L`; the
preservation only holds for positive lengths. -/
theorem vectorSetLength_counterexample :
    Vector.angle (Vector.setLength ⟨0, 1⟩ 0) ≠ Vector.angle ⟨0, 1⟩ := by
  have hz : Vector.setLength ⟨0, 1⟩ 0 =
      (⟨0, 0⟩ : Vector) := by
    unfold Vector.setLength
    simp
  have h0 : Vector.angle (⟨0, 0⟩ : Vector) = 0 := by
    unfold Vector.angle
    have : (⟨(0 : ℝ), (0 : ℝ)⟩ : ℂ) = 0 := by
      apply Complex.ext <;> simp
    rw [this, Complex.arg_zero]
  have hI : Vector.angle (⟨0, 1⟩ : Vector) = Real.pi / 2 := by
    unfold Vector.angle
    have : (⟨(0 : ℝ), (1 : ℝ)⟩ : ℂ) = Complex.I := rfl
    rw [this, Complex.arg_I]
  rw [hz, h0, hI]
  exact ne_of_lt (half_pos Real.pi_pos)

/-- C8 (amended: the `length` setter preserves the angle only for positive
assigned lengths; length 0 resets the angle to 0 and a negative length
flips it): assigning a positive length `L` leaves the angle unchanged while
making the components `(L cos angle, L sin angle)`, and assigning an angle
`a` leaves the length unchanged while making the components
`(length cos a, length sin a)`. -/
theorem vectorPolarSetters (v : Vector) (L a : ℝ) (hL : 0 < L) :
    (v.setLength L).angle = v.angle
    ∧ (v.setLength L).x = L * Real.cos v.angle
    ∧ (v.setLength L).y = L * Real.sin v.angle
    ∧ (v.setAngle a).length = v.length
    ∧ (v.setAngle a).x = v.length * Real.cos a
    ∧ (v.setAngle a).y = v.length * Real.sin a := by
  refine ⟨?_, rfl, rfl, ?_, rfl, rfl⟩
  · have heq : (⟨L * Real.cos v.angle, L * Real.sin v.angle⟩ : ℂ) =
        (L : ℂ) * (Complex.cos v.angle + Complex.sin v.angle * Complex.I) := by
      apply Complex.ext <;>
        simp [Complex.add_re, Complex.add_im, Complex.mul_re, Complex.mul_im,
          Complex.cos_ofReal_re, Complex.cos_ofReal_im, Complex.sin_ofReal_re,
          Complex.sin_ofReal_im, Complex.I_re, Complex.I_im, Complex.ofReal_re,
          Complex.ofReal_im]
    have h0 : (v.setLength L).angle =
        Complex.arg ⟨L * Real.cos v.angle, L * Real.sin v.angle⟩ := rfl
    have h1 : v.angle = Complex.arg ⟨v.x, v.y⟩ := rfl
    rw [h0, heq]
    exact Complex.arg_mul_cos_add_sin_mul_I hL
      (by rw [h1]; exact Complex.arg_mem_Ioc _)
  · have hnn : 0 ≤ v.length := Real.sqrt_nonneg _
    have h0 : (v.setAngle a).length =
        Real.sqrt ((v.length * Real.cos a) ^ 2 + (v.length * Real.sin a) ^ 2) := rfl
    have h1 : (v.length * Real.cos a) ^ 2 + (v.length * Real.sin a) ^ 2 =
        v.length ^ 2 := by
      have h2 := Real.sin_sq_add_cos_sq a
      nlinarith [h2]
    rw [h0, h1]
    exact Real.sqrt_sq hnn

/-- C8 witness: doubling the length of the unit vector (1, 0) keeps its
angle, and rotating it keeps its length. -/
theorem vectorPolarSetters_witness :
    (Vector.setLength ⟨1, 0⟩ 2).angle = Vector.angle ⟨1, 0⟩
    ∧ (Vector.setAngle ⟨1, 0⟩ 0).length = Vector.length ⟨1, 0⟩ :=
  ⟨(vectorPolarSetters ⟨1, 0⟩ 2 0 two_pos).1,
    (vectorPolarSetters ⟨1, 0⟩ 2 0 two_pos).2.2.2.1⟩

end Balder
